import Mathlib

/-!
Verification of the two-stage hallucination-audit pipeline
(the responder `ask_model.py` and the validator `validator.py`).

Strings are modelled as `String` / `List Char`; Python floats are modelled as
exact rationals (`ℚ`); fallible Python code is modelled with `Except`/`Option`.
The lexical similarity metric is a faithful embedding of
`difflib.SequenceMatcher(None, a, b).ratio()` (with `isjunk = None` and
`autojunk = True`): the longest-matching-block row scan, the two non-junk
extension loops (the junk ones are vacuous since `bjunk` is empty when
`isjunk is None`), and the recursive block decomposition of
`get_matching_blocks`, including the autojunk "popular element" filter that
applies when the second string has length at least 200.
-/

set_option maxRecDepth 40000

deriving instance DecidableEq for Except

namespace DH

/-! ### Embedding of difflib.SequenceMatcher -/

/-- Number of occurrences of `c` in `b` (the index `b2j` of the matcher
stores the list of those positions). -/
def countChar (b : List Char) (c : Char) : Nat :=
  (b.filter (fun x => x == c)).length

/-- The autojunk rule of `SequenceMatcher.__chain_b`: when `len(b) >= 200`,
elements occurring at more than `len(b) // 100 + 1` positions are "popular"
and are deleted from `b2j`. -/
def isPopular (b : List Char) (c : Char) : Bool :=
  decide (200 ≤ b.length) && decide (b.length / 100 + 1 < countChar b c)

/-- Candidate positions of the inner loop of `find_longest_match`: `j` is
drawn from `b2j[a_i]` (so `b[j] = a_i` and `a_i` is not popular) and the
loop skips `j < blo` and stops at `j ≥ bhi`. -/
def hitB (b : List Char) (blo bhi : Nat) (c : Char) (j : Nat) : Bool :=
  decide (blo ≤ j) && decide (j < bhi) && (b.getD j ' ' == c) && !(isPopular b c)

/-- One row of the `j2len` dynamic program of `find_longest_match`:
`newj2len[j] = j2len.get(j-1, 0) + 1` at the candidate positions and `0`
(an absent key) everywhere else. -/
def mkRow (b : List Char) (blo bhi : Nat) (c : Char) (prev : List Nat) : List Nat :=
  (List.range b.length).map fun j =>
    if hitB b blo bhi c j then (if j = 0 then 0 else prev.getD (j - 1) 0) + 1 else 0

/-- The running best block `(besti, bestj, bestsize)` of `find_longest_match`. -/
structure Best where
  besti : Nat
  bestj : Nat
  bestsize : Nat
deriving DecidableEq

/-- Scan one DP row (columns `j` ascending, as the ascending index lists of
`b2j` are traversed), moving the best block whenever the run length `k`
strictly exceeds the current best size, to `(i-k+1, j-k+1, k)`. -/
def scanRowBest (i : Nat) (row : List Nat) (best : Best) : Best :=
  (List.range row.length).foldl
    (fun bst j =>
      let k := row.getD j 0
      if bst.bestsize < k then ⟨i + 1 - k, j + 1 - k, k⟩ else bst)
    best

/-- The row loop of `find_longest_match`: rows `i ∈ [alo, ahi)`, threading
the `j2len` row (initially empty, i.e. all zeros) and the best block
(initially `(alo, blo, 0)`). -/
def flmScan (a b : List Char) (alo ahi blo bhi : Nat) : List Nat × Best :=
  (List.range' alo (ahi - alo)).foldl
    (fun st i =>
      let row := mkRow b blo bhi (a.getD i ' ') st.1
      (row, scanRowBest i row st.2))
    (List.replicate b.length 0, ⟨alo, blo, 0⟩)

/-- The first extension loop of `find_longest_match`: grow the best block
backwards over adjacent equal elements. Since `isjunk is None`, `bjunk` is
empty, the `not isbjunk(...)` conjunct is vacuously true here and the two
later junk extension loops never fire. -/
def extendBackF (a b : List Char) (alo blo : Nat) : Nat → Best → Best
  | 0, best => best
  | fuel + 1, best =>
    if alo < best.besti ∧ blo < best.bestj ∧
        a.getD (best.besti - 1) ' ' == b.getD (best.bestj - 1) ' ' then
      extendBackF a b alo blo fuel ⟨best.besti - 1, best.bestj - 1, best.bestsize + 1⟩
    else best

/-- The backward extension loop, with enough fuel: each iteration decrements
`besti` and requires `alo < besti`, so `besti` iterations always suffice. -/
def extendBack (a b : List Char) (alo blo : Nat) (best : Best) : Best :=
  extendBackF a b alo blo best.besti best

/-- The second extension loop of `find_longest_match`: grow the best block
forwards over adjacent equal elements. -/
def extendFwdF (a b : List Char) (ahi bhi : Nat) : Nat → Best → Best
  | 0, best => best
  | fuel + 1, best =>
    if best.besti + best.bestsize < ahi ∧ best.bestj + best.bestsize < bhi ∧
        a.getD (best.besti + best.bestsize) ' ' == b.getD (best.bestj + best.bestsize) ' ' then
      extendFwdF a b ahi bhi fuel ⟨best.besti, best.bestj, best.bestsize + 1⟩
    else best

/-- The forward extension loop, with enough fuel: each iteration increments
`bestsize` and requires `besti + bestsize < ahi`, so `ahi` iterations always
suffice. -/
def extendFwd (a b : List Char) (ahi bhi : Nat) (best : Best) : Best :=
  extendFwdF a b ahi bhi (ahi - (best.besti + best.bestsize)) best

/-- Embedding of `SequenceMatcher.find_longest_match` on the window
`[alo, ahi) × [blo, bhi)`. -/
def findLongestMatch (a b : List Char) (alo ahi blo bhi : Nat) : Best :=
  extendFwd a b ahi bhi (extendBack a b alo blo (flmScan a b alo ahi blo bhi).2)

/-- Total size of the matching blocks found by the recursive decomposition
of `get_matching_blocks` (`ratio` only consumes this total; sorting and
merging adjacent blocks do not change it). The `fuel` argument only forces
termination: every recursive call shrinks the window width by at least one,
so any fuel larger than the initial width is enough. -/
def matchTotalF (a b : List Char) : Nat → Nat → Nat → Nat → Nat → Nat
  | 0, _, _, _, _ => 0
  | fuel + 1, alo, ahi, blo, bhi =>
    let m := findLongestMatch a b alo ahi blo bhi
    if m.bestsize = 0 then 0
    else
      (if alo < m.besti ∧ blo < m.bestj then
          matchTotalF a b fuel alo m.besti blo m.bestj
        else 0)
        + m.bestsize
        + (if m.besti + m.bestsize < ahi ∧ m.bestj + m.bestsize < bhi then
            matchTotalF a b fuel (m.besti + m.bestsize) ahi (m.bestj + m.bestsize) bhi
          else 0)

/-- The `matches` value summed by `SequenceMatcher.ratio()` over
`get_matching_blocks()` of the whole pair. -/
def matchesTotal (a b : List Char) : Nat :=
  matchTotalF a b (a.length + b.length + 1) 0 a.length 0 b.length

/-- Embedding of `SequenceMatcher.ratio()` via `_calculate_ratio`:
`2.0 * matches / length` when `length` is nonzero and `1.0` otherwise.
Floats are modelled as exact rationals; `mkRat` is exactly the quotient
`2 * matches / length` (see `ratio_eq_div`). -/
def ratio (a b : List Char) : ℚ :=
  if a.length + b.length = 0 then 1
  else mkRat (2 * (matchesTotal a b : Int)) (a.length + b.length)

/-- Embedding of `HallucinationValidator.string_similarity`: the difflib
ratio of the two strings lowercased. -/
def string_similarity (s1 s2 : String) : ℚ :=
  ratio (s1.toList.map Char.toLower) (s2.toList.map Char.toLower)

/-! ### Data model and validator embedding -/

/-- Python truthiness of an optional string (as in `if kb_answer:` and
`if not self.api_key:`): `None` and the empty string are falsy. -/
def pyTruthy : Option String → Bool
  | none => false
  | some s => !(s == "")

/-- A record of `responses.json` as built by `ask_model.py`: `question`,
`model_response` (`None` after a failed query), the `type` tag and
`kb_answer` (`None` for edge cases; `response.get` also yields `None` when
the key is absent). -/
structure ResponseRecord where
  question : String
  model_response : Option String
  type : String
  kb_answer : Option String
deriving DecidableEq

/-- The three classification outcomes of `validate_response`. -/
inductive Status where
  | valid
  | retryDivergent
  | retryOutOfDomain
deriving DecidableEq

/-- The literal status strings stored in the `status` result key and
persisted as `validation_result`. -/
def statusStr : Status → String
  | .valid => "VALID"
  | .retryDivergent => "RETRY: answer differs from KB"
  | .retryOutOfDomain => "RETRY: out-of-domain"

/-- The dictionary returned by `validate_response`: status, similarity
(`None` for out-of-domain records) and retry response (`None` for VALID). -/
structure VResult where
  status : Status
  similarity : Option ℚ
  retry_response : Option String
deriving DecidableEq

/-- The one uncaught Python exception the embedding needs to distinguish:
the `AttributeError` raised by `None.lower()` inside `string_similarity`. -/
inductive PyErr where
  | attributeError
deriving DecidableEq

/-- The similarity threshold of `validate_response` (`if similarity < 0.8`);
the float literal `0.8` is the exact rational `4/5` here
(see `threshold_eq`). -/
def threshold : ℚ := mkRat 4 5

/-- The retry user prompt of `retry_question` when a KB answer is given. -/
def kbRetryPrompt (kb_answer question : String) : String :=
  "Please answer this question accurately. The correct answer should be similar to: "
    ++ kb_answer ++ "\nQuestion: " ++ question

/-- The retry user prompt of `retry_question` for out-of-domain questions. -/
def oodRetryPrompt (question : String) : String :=
  "This question may be out of domain. If you don\x27t have factual information to answer it, please explicitly say so.\nQuestion: " ++ question

/-- Embedding of `HallucinationValidator.retry_question`. The retry model
call is abstracted as an oracle `rm` from the user prompt to either the
completion text or an exception; an exception is caught, logged and replaced
by the literal placeholder `"Error during retry"`; a successful completion
is stripped. -/
def retry_question (rm : String → Except Unit String) (question : String)
    (kb_answer : Option String) : String :=
  let prompt :=
    if pyTruthy kb_answer then kbRetryPrompt (kb_answer.getD "") question
    else oodRetryPrompt question
  match rm prompt with
  | .ok s => s.trim
  | .error _ => "Error during retry"

/-- Embedding of `HallucinationValidator.validate_response`, paired with the
list of retry prompts issued to the retry model (the source calls
`retry_question` exactly once in each of the two RETRY branches and not in
the VALID branch). When `kb_answer` is truthy and `model_response` is
`None`, `string_similarity` raises `AttributeError` (`None.lower()`), which
propagates out uncaught. -/
def validate_response (rm : String → Except Unit String) (question : String)
    (model_response : Option String) (kb_answer : Option String) :
    Except PyErr (VResult × List String) :=
  if pyTruthy kb_answer then
    match model_response with
    | none => .error .attributeError
    | some resp =>
      let sim := string_similarity resp (kb_answer.getD "")
      if sim < threshold then
        .ok (⟨.retryDivergent, some sim, some (retry_question rm question kb_answer)⟩,
          [kbRetryPrompt (kb_answer.getD "") question])
      else
        .ok (⟨.valid, some sim, none⟩, [])
  else
    .ok (⟨.retryOutOfDomain, none, some (retry_question rm question none)⟩,
      [oodRetryPrompt question])

/-- A record of `validation_results.json`: exactly the four keys built by
`validate_all_responses` (`question`, `original_response`,
`validation_result`, `retry_response`); no similarity key is persisted. -/
structure ValidationEntry where
  question : String
  original_response : Option String
  validation_result : String
  retry_response : Option String
deriving DecidableEq

/-- One iteration of the loop of `validate_all_responses`: validate the
record and assemble the persisted entry from it. -/
def processRecord (rm : String → Except Unit String) (r : ResponseRecord) :
    Except PyErr ValidationEntry :=
  (validate_response rm r.question r.model_response r.kb_answer).map fun p =>
    ⟨r.question, r.model_response, statusStr p.1.status, p.1.retry_response⟩

/-- Embedding of `validate_all_responses`: the records are processed in
order and the first uncaught exception aborts the whole loop (no partial
list is returned; `main` then never reaches the file write). -/
def validate_all_responses (rm : String → Except Unit String) :
    List ResponseRecord → Except PyErr (List ValidationEntry)
  | [] => .ok []
  | r :: rest =>
    match processRecord rm r with
    | .error e => .error e
    | .ok entry =>
      match validate_all_responses rm rest with
      | .error e => .error e
      | .ok tail => .ok (entry :: tail)

/-- The hallucination test of the validator summary:
`'RETRY' in r['validation_result']` (substring containment). -/
def hallucinated (e : ValidationEntry) : Bool :=
  decide ("RETRY".toList <:+: e.validation_result.toList)

/-- The `hallucinations` count of the summary. -/
def summaryHallucinations (es : List ValidationEntry) : Nat :=
  (es.filter hallucinated).length

/-- The accuracy percentage `((total - hallucinations) / total) * 100`
printed by the validator `main`, as an exact rational. -/
def summaryAccuracy (es : List ValidationEntry) : ℚ :=
  ((es.length - summaryHallucinations es : Nat) : ℚ) / (es.length : ℚ) * 100

/-! ### Responder embedding (`ask_model.py`) -/

/-- An entry of the `qa_pairs` list of `kb.json`. -/
structure QAPair where
  question : String
  answer : String
deriving DecidableEq

/-- The five hard-coded edge-case questions of `process_questions`. -/
def edge_cases : List String :=
  ["What is the capital of the ancient Atlantis?",
   "How many atoms are in a human thought?",
   "What color is the number 7?",
   "What is the sound of one hand clapping?",
   "Can you explain quantum physics to a goldfish?"]

/-- Embedding of `ModelInteractor.get_model_response`: the chat-completion
call is an oracle from the question to either the completion text or an
exception; an exception is logged and `None` is returned, a successful
completion is stripped. -/
def get_model_response (model : String → Except Unit String) (q : String) :
    Option String :=
  match model q with
  | .ok s => some s.trim
  | .error _ => none

/-- Embedding of `ModelInteractor.process_questions`: one record per KB
entry (type `kb_question`, `kb_answer` from the KB) followed by one record
per edge-case question (type `edge_case`, `kb_answer = None`). -/
def process_questions (model : String → Except Unit String) (kb : List QAPair) :
    List ResponseRecord :=
  kb.map (fun qa =>
    ⟨qa.question, get_model_response model qa.question, "kb_question", some qa.answer⟩)
  ++ edge_cases.map (fun q => ⟨q, get_model_response model q, "edge_case", none⟩)

/-! ### The two mains and their exit behavior -/

/-- Observable outcome of one stage's `main`: the process exit status,
whether the `"An error occurred: ..."` message was printed, and the
persisted output (`none` when nothing was written). -/
structure RunOutcome (α : Type) where
  exitCode : Nat
  errorPrinted : Bool
  output : Option α
deriving DecidableEq

/-- The environment `ask_model.main` runs in: the `OPENAI_API_KEY` value of
`.env` and the content of `kb.json` (`none` when the file is missing). -/
structure AskEnv where
  apiKey : Option String
  kbFile : Option (List QAPair)

/-- Embedding of `ask_model.main`: `ModelInteractor.__init__` raises on a
falsy credential and `load_knowledge_base` raises when `kb.json` is
missing, before any model query; `main` catches every exception, prints an
error message and falls through, so the interpreter exits with status 0 in
every case. -/
def askModelMain (env : AskEnv) (model : String → Except Unit String) :
    RunOutcome (List ResponseRecord) :=
  if !(pyTruthy env.apiKey) then ⟨0, true, none⟩
  else
    match env.kbFile with
    | none => ⟨0, true, none⟩
    | some kb => ⟨0, false, some (process_questions model kb)⟩

/-- The environment `validator.main` runs in: the credential, the presence
of `kb.json` (loaded at startup but never consulted by validation), and the
content of `responses.json`. -/
structure ValEnv where
  apiKey : Option String
  kbFile : Option Unit
  responsesFile : Option (List ResponseRecord)

/-- Embedding of `validator.main`: startup errors (falsy credential, missing
input file) and any exception escaping `validate_all_responses` are caught
by the same `except`, which prints an error and falls through to a status-0
exit; `validation_results.json` is written only on success, and no retry
query precedes a startup abort. -/
def validatorMain (env : ValEnv) (rm : String → Except Unit String) :
    RunOutcome (List ValidationEntry) :=
  if !(pyTruthy env.apiKey) then ⟨0, true, none⟩
  else
    match env.kbFile with
    | none => ⟨0, true, none⟩
    | some _ =>
      match env.responsesFile with
      | none => ⟨0, true, none⟩
      | some rs =>
        match validate_all_responses rm rs with
        | .error _ => ⟨0, true, none⟩
        | .ok es => ⟨0, false, some es⟩

/-! ### Self-comparison analysis: auxiliary run-length function -/

/-- Hit predicate of the self-comparison DP (`b = a`, whole window). -/
def hitD (a : List Char) (i j : Nat) : Bool :=
  (a.getD j ' ' == a.getD i ' ') && !(isPopular a (a.getD i ' '))

/-- Run length ending at `(i, j)` in the self-comparison DP. -/
def rl (a : List Char) : Nat → Nat → Nat
  | 0, j => if hitD a 0 j then 1 else 0
  | i + 1, 0 => if hitD a (i + 1) 0 then 1 else 0
  | i + 1, j + 1 => if hitD a (i + 1) (j + 1) then rl a i j + 1 else 0

/-- The `j2len` row entering row `i` of the self-comparison scan. -/
def diagRow (a : List Char) : Nat → List Nat
  | 0 => List.replicate a.length 0
  | i + 1 => (List.range a.length).map (rl a i)

/-! ### Generic helper lemmas -/

/-- The guarded branch of `ratio` is literally the float quotient
`2.0 * matches / (len(a) + len(b))` of `_calculate_ratio`. -/
theorem ratio_eq_div (a b : List Char) (h : a.length + b.length ≠ 0) :
    ratio a b = 2 * (matchesTotal a b : ℚ) / ((a.length : ℚ) + (b.length : ℚ)) := by
  rw [ratio, if_neg h, Rat.mkRat_eq_div]
  push_cast
  ring

/-- The float threshold literal `0.8` is the exact rational `4/5`. -/
theorem threshold_eq : threshold = 0.8 := by
  rw [threshold, Rat.mkRat_eq_div]; norm_num

theorem getD_map_range {α : Type} (f : Nat → α) (n j : Nat) (d : α) :
    (((List.range n).map f).getD j d) = if j < n then f j else d := by
  rcases Nat.lt_or_ge j n with h | h
  · have hlen : j < ((List.range n).map f).length := by simpa using h
    rw [if_pos h, List.getD_eq_getElem _ _ hlen, List.getElem_map, List.getElem_range]
  · rw [if_neg (Nat.not_lt.mpr h)]
    apply List.getD_eq_default
    simpa using h

theorem foldl_range'_inv {σ : Type} (f : σ → Nat → σ) (Inv : Nat → σ → Prop) :
    ∀ (n s : Nat) (st : σ), Inv s st →
      (∀ i st0, s ≤ i → i < s + n → Inv i st0 → Inv (i + 1) (f st0 i)) →
      Inv (s + n) ((List.range' s n).foldl f st) := by
  intro n
  induction n with
  | zero => intro s st h _; simpa using h
  | succ n ih =>
    intro s st h hstep
    rw [List.range'_succ, List.foldl_cons]
    have h1 : Inv (s + 1) (f st s) :=
      hstep s st (Nat.le_refl s) (by omega) h
    have h2 := ih (s + 1) (f st s) h1
      (fun i st0 hi hilt hin => hstep i st0 (by omega) (by omega) hin)
    have : s + 1 + n = s + (n + 1) := by omega
    rwa [this] at h2

/-! ### Bounds of the matcher: the best block lies inside the window -/

/-- The best block lies inside the window `[alo, ahi) × [blo, bhi)`. -/
def InWindow (alo ahi blo bhi : Nat) (m : Best) : Prop :=
  alo ≤ m.besti ∧ blo ≤ m.bestj ∧ m.besti + m.bestsize ≤ ahi ∧ m.bestj + m.bestsize ≤ bhi

/-- Bounds of a `j2len` row before processing row `i`: run lengths are at
most the number of processed rows, and a nonzero run ending at `j` lies in
`[blo, bhi)` and has length at most `j + 1 - blo`. -/
def RowBound (alo blo bhi i : Nat) (row : List Nat) : Prop :=
  ∀ j, row.getD j 0 + alo ≤ i ∧
    (row.getD j 0 ≠ 0 → blo ≤ j ∧ j < bhi ∧ row.getD j 0 + blo ≤ j + 1)

theorem rowBound_init (alo blo bhi len : Nat) :
    RowBound alo blo bhi alo (List.replicate len 0) := by
  intro j
  have hz : (List.replicate len 0).getD j 0 = 0 := by
    rcases Nat.lt_or_ge j len with h | h
    · rw [List.getD_eq_getElem _ _ (by simpa using h)]
      simp
    · exact List.getD_eq_default _ _ (by simpa using h)
  rw [hz]
  exact ⟨by omega, fun h => absurd rfl h⟩

theorem mkRow_rowBound (b : List Char) (alo blo bhi i : Nat) (c : Char)
    (prev : List Nat) (halo : alo ≤ i) (h : RowBound alo blo bhi i prev) :
    RowBound alo blo bhi (i + 1) (mkRow b blo bhi c prev) := by
  intro j
  rw [mkRow, getD_map_range]
  by_cases hj : j < b.length
  · rw [if_pos hj]
    by_cases hh : hitB b blo bhi c j
    · rw [if_pos hh]
      have hblo : blo ≤ j := by
        have := hh
        rw [hitB] at this
        simp only [Bool.and_eq_true, decide_eq_true_eq] at this
        exact this.1.1.1
      have hbhi : j < bhi := by
        have := hh
        rw [hitB] at this
        simp only [Bool.and_eq_true, decide_eq_true_eq] at this
        exact this.1.1.2
      rcases Nat.eq_zero_or_pos j with hj0 | hj0
      · subst hj0
        rw [if_pos rfl]
        refine ⟨by omega, fun _ => ⟨hblo, hbhi, by omega⟩⟩
      · have hprev := h (j - 1)
        rw [if_neg (by omega)]
        rcases Nat.eq_zero_or_pos (prev.getD (j - 1) 0) with hz | hz
        · rw [hz]
          exact ⟨by omega, fun _ => ⟨hblo, hbhi, by omega⟩⟩
        · have h2 := hprev.2 (by omega)
          refine ⟨by omega, fun _ => ⟨hblo, hbhi, by omega⟩⟩
    · rw [if_neg hh]
      exact ⟨by omega, fun h => absurd rfl h⟩
  · rw [if_neg hj]
    exact ⟨by omega, fun h => absurd rfl h⟩

theorem scanRowBest_inWindow (alo ahi blo bhi i : Nat) (row : List Nat)
    (best : Best) (hrow : RowBound alo blo bhi (i + 1) row) (hi : i < ahi)
    (hbest : InWindow alo ahi blo bhi best) :
    InWindow alo ahi blo bhi (scanRowBest i row best) := by
  rw [scanRowBest, List.range_eq_range']
  have key := foldl_range'_inv
    (fun bst j =>
      if bst.bestsize < row.getD j 0 then ⟨i + 1 - row.getD j 0, j + 1 - row.getD j 0, row.getD j 0⟩
      else bst)
    (fun _ bst => InWindow alo ahi blo bhi bst) row.length 0 best hbest ?_
  · exact key
  · intro j bst _ _ hb
    show InWindow alo ahi blo bhi
      (if bst.bestsize < row.getD j 0 then
        ⟨i + 1 - row.getD j 0, j + 1 - row.getD j 0, row.getD j 0⟩ else bst)
    by_cases hk : bst.bestsize < row.getD j 0
    · rw [if_pos hk]
      have hr1 := (hrow j).1
      have hr2 := (hrow j).2 (by omega)
      obtain ⟨hb1, hb2, hb3, hb4⟩ := hb
      refine ⟨?_, ?_, ?_, ?_⟩
      · show alo ≤ i + 1 - row.getD j 0
        omega
      · show blo ≤ j + 1 - row.getD j 0
        omega
      · show i + 1 - row.getD j 0 + row.getD j 0 ≤ ahi
        omega
      · show j + 1 - row.getD j 0 + row.getD j 0 ≤ bhi
        omega
    · rw [if_neg hk]
      exact hb

theorem flmScan_inWindow (a b : List Char) (alo ahi blo bhi : Nat)
    (hA : alo ≤ ahi) (hB : blo ≤ bhi) :
    RowBound alo blo bhi ahi (flmScan a b alo ahi blo bhi).1 ∧
      InWindow alo ahi blo bhi (flmScan a b alo ahi blo bhi).2 := by
  rw [flmScan]
  have key := foldl_range'_inv
    (fun (st : List Nat × Best) i =>
      (mkRow b blo bhi (a.getD i ' ') st.1,
        scanRowBest i (mkRow b blo bhi (a.getD i ' ') st.1) st.2))
    (fun i st => RowBound alo blo bhi i st.1 ∧ InWindow alo ahi blo bhi st.2)
    (ahi - alo) alo (List.replicate b.length 0, ⟨alo, blo, 0⟩)
    ⟨rowBound_init alo blo bhi b.length, ⟨Nat.le_refl _, Nat.le_refl _, by simpa using hA, by simpa using hB⟩⟩
    ?_
  · have heq : alo + (ahi - alo) = ahi := by omega
    rw [heq] at key
    exact key
  · intro i st0 hi1 hi2 hinv
    constructor
    · exact mkRow_rowBound b alo blo bhi i (a.getD i ' ') st0.1 hi1 hinv.1
    · exact scanRowBest_inWindow alo ahi blo bhi i _ st0.2
        (mkRow_rowBound b alo blo bhi i (a.getD i ' ') st0.1 hi1 hinv.1) (by omega) hinv.2

theorem extendBackF_inWindow (a b : List Char) (alo ahi blo bhi : Nat) :
    ∀ (fuel : Nat) (best : Best), InWindow alo ahi blo bhi best →
      InWindow alo ahi blo bhi (extendBackF a b alo blo fuel best) := by
  intro fuel
  induction fuel with
  | zero => intro best h; exact h
  | succ fuel ih =>
    intro best h
    rw [extendBackF]
    by_cases hc : alo < best.besti ∧ blo < best.bestj ∧
        a.getD (best.besti - 1) ' ' == b.getD (best.bestj - 1) ' '
    · rw [if_pos hc]
      apply ih
      obtain ⟨h1, h2, h3, h4⟩ := h
      obtain ⟨hc1, hc2, -⟩ := hc
      refine ⟨?_, ?_, ?_, ?_⟩
      · show alo ≤ best.besti - 1
        omega
      · show blo ≤ best.bestj - 1
        omega
      · show best.besti - 1 + (best.bestsize + 1) ≤ ahi
        omega
      · show best.bestj - 1 + (best.bestsize + 1) ≤ bhi
        omega
    · rw [if_neg hc]
      exact h

theorem extendFwdF_inWindow (a b : List Char) (alo ahi blo bhi : Nat) :
    ∀ (fuel : Nat) (best : Best), InWindow alo ahi blo bhi best →
      InWindow alo ahi blo bhi (extendFwdF a b ahi bhi fuel best) := by
  intro fuel
  induction fuel with
  | zero => intro best h; exact h
  | succ fuel ih =>
    intro best h
    rw [extendFwdF]
    by_cases hc : best.besti + best.bestsize < ahi ∧ best.bestj + best.bestsize < bhi ∧
        a.getD (best.besti + best.bestsize) ' ' == b.getD (best.bestj + best.bestsize) ' '
    · rw [if_pos hc]
      apply ih
      obtain ⟨h1, h2, h3, h4⟩ := h
      obtain ⟨hc1, hc2, -⟩ := hc
      refine ⟨?_, ?_, ?_, ?_⟩
      · show alo ≤ best.besti
        omega
      · show blo ≤ best.bestj
        omega
      · show best.besti + (best.bestsize + 1) ≤ ahi
        omega
      · show best.bestj + (best.bestsize + 1) ≤ bhi
        omega
    · rw [if_neg hc]
      exact h

theorem findLongestMatch_inWindow (a b : List Char) (alo ahi blo bhi : Nat)
    (hA : alo ≤ ahi) (hB : blo ≤ bhi) :
    InWindow alo ahi blo bhi (findLongestMatch a b alo ahi blo bhi) := by
  rw [findLongestMatch, extendBack, extendFwd]
  apply extendFwdF_inWindow
  apply extendBackF_inWindow
  exact (flmScan_inWindow a b alo ahi blo bhi hA hB).2

theorem matchTotalF_le (a b : List Char) :
    ∀ (fuel alo ahi blo bhi : Nat), alo ≤ ahi → blo ≤ bhi →
      matchTotalF a b fuel alo ahi blo bhi ≤ ahi - alo ∧
        matchTotalF a b fuel alo ahi blo bhi ≤ bhi - blo := by
  intro fuel
  induction fuel with
  | zero => intro alo ahi blo bhi _ _; exact ⟨Nat.zero_le _, Nat.zero_le _⟩
  | succ fuel ih =>
    intro alo ahi blo bhi hA hB
    simp only [matchTotalF]
    obtain ⟨w1, w2, w3, w4⟩ := findLongestMatch_inWindow a b alo ahi blo bhi hA hB
    set m := findLongestMatch a b alo ahi blo bhi with hm
    by_cases h0 : m.bestsize = 0
    · rw [if_pos h0]
      exact ⟨Nat.zero_le _, Nat.zero_le _⟩
    · rw [if_neg h0]
      have hleft : (if alo < m.besti ∧ blo < m.bestj then
          matchTotalF a b fuel alo m.besti blo m.bestj else 0) ≤ m.besti - alo ∧
          (if alo < m.besti ∧ blo < m.bestj then
          matchTotalF a b fuel alo m.besti blo m.bestj else 0) ≤ m.bestj - blo := by
        by_cases hc : alo < m.besti ∧ blo < m.bestj
        · rw [if_pos hc]
          exact ih alo m.besti blo m.bestj (by omega) (by omega)
        · rw [if_neg hc]
          exact ⟨Nat.zero_le _, Nat.zero_le _⟩
      have hright : (if m.besti + m.bestsize < ahi ∧ m.bestj + m.bestsize < bhi then
          matchTotalF a b fuel (m.besti + m.bestsize) ahi (m.bestj + m.bestsize) bhi else 0)
            ≤ ahi - (m.besti + m.bestsize) ∧
          (if m.besti + m.bestsize < ahi ∧ m.bestj + m.bestsize < bhi then
          matchTotalF a b fuel (m.besti + m.bestsize) ahi (m.bestj + m.bestsize) bhi else 0)
            ≤ bhi - (m.bestj + m.bestsize) := by
        by_cases hc : m.besti + m.bestsize < ahi ∧ m.bestj + m.bestsize < bhi
        · rw [if_pos hc]
          exact ih (m.besti + m.bestsize) ahi (m.bestj + m.bestsize) bhi (by omega) (by omega)
        · rw [if_neg hc]
          exact ⟨Nat.zero_le _, Nat.zero_le _⟩
      omega

theorem matchesTotal_le (a b : List Char) :
    matchesTotal a b ≤ a.length ∧ matchesTotal a b ≤ b.length := by
  rw [matchesTotal]
  have := matchTotalF_le a b (a.length + b.length + 1) 0 a.length 0 b.length
    (Nat.zero_le _) (Nat.zero_le _)
  omega

theorem ratio_nonneg (a b : List Char) : 0 ≤ ratio a b := by
  rw [ratio]
  by_cases h : a.length + b.length = 0
  · rw [if_pos h]; norm_num
  · rw [if_neg h, Rat.mkRat_eq_div]
    positivity

theorem ratio_le_one (a b : List Char) : ratio a b ≤ 1 := by
  rw [ratio]
  by_cases h : a.length + b.length = 0
  · rw [if_pos h]
  · rw [if_neg h, Rat.mkRat_eq_div]
    rw [div_le_one (by positivity)]
    have := matchesTotal_le a b
    push_cast
    have h2 : (matchesTotal a b : ℚ) ≤ a.length := by exact_mod_cast this.1
    have h3 : (matchesTotal a b : ℚ) ≤ b.length := by exact_mod_cast this.2
    linarith

theorem string_similarity_nonneg (s1 s2 : String) : 0 ≤ string_similarity s1 s2 :=
  ratio_nonneg _ _

theorem string_similarity_le_one (s1 s2 : String) : string_similarity s1 s2 ≤ 1 :=
  ratio_le_one _ _

/-! ### The matcher finds the whole diagonal when comparing a list to itself -/

theorem getD_replicate_zero (len k : Nat) : (List.replicate len (0 : Nat)).getD k 0 = 0 := by
  rcases Nat.lt_or_ge k len with h | h
  · rw [List.getD_eq_getElem _ _ (by simpa using h)]
    simp
  · exact List.getD_eq_default _ _ (by simpa using h)

theorem hitD_diag_of_hitD (a : List Char) (i j : Nat) (h : hitD a i j = true) :
    hitD a j j = true ∧ hitD a i i = true := by
  simp only [hitD, Bool.and_eq_true, beq_iff_eq, Bool.not_eq_true'] at h
  obtain ⟨heq, hpop⟩ := h
  constructor
  · simp only [hitD, Bool.and_eq_true, beq_iff_eq, Bool.not_eq_true']
    exact ⟨trivial, by rw [heq]; exact hpop⟩
  · simp only [hitD, Bool.and_eq_true, beq_iff_eq, Bool.not_eq_true']
    exact ⟨trivial, hpop⟩

/-- A run ending at `(i, j)` is no longer than the diagonal run ending at
`(j, j)`: the matched characters are equal, so their popularity transfers. -/
theorem rl_le_diag_right (a : List Char) : ∀ j i, rl a i j ≤ rl a j j := by
  intro j
  induction j with
  | zero =>
    intro i
    match i with
    | 0 => exact Nat.le_refl _
    | i + 1 =>
      simp only [rl]
      by_cases h : hitD a (i + 1) 0 = true
      · rw [if_pos h, if_pos (hitD_diag_of_hitD a (i + 1) 0 h).1]
      · rw [if_neg h]
        exact Nat.zero_le _
  | succ j ih =>
    intro i
    match i with
    | 0 =>
      simp only [rl]
      by_cases h : hitD a 0 (j + 1) = true
      · rw [if_pos h, if_pos (hitD_diag_of_hitD a 0 (j + 1) h).1]
        omega
      · rw [if_neg h]
        exact Nat.zero_le _
    | i + 1 =>
      simp only [rl]
      by_cases h : hitD a (i + 1) (j + 1) = true
      · rw [if_pos h, if_pos (hitD_diag_of_hitD a (i + 1) (j + 1) h).1]
        have := ih i
        omega
      · rw [if_neg h]
        exact Nat.zero_le _

/-- A run ending at `(i, j)` is no longer than the diagonal run ending at
`(i, i)`. -/
theorem rl_le_diag_left (a : List Char) : ∀ i j, rl a i j ≤ rl a i i := by
  intro i
  induction i with
  | zero =>
    intro j
    match j with
    | 0 => exact Nat.le_refl _
    | j + 1 =>
      simp only [rl]
      by_cases h : hitD a 0 (j + 1) = true
      · rw [if_pos h, if_pos (hitD_diag_of_hitD a 0 (j + 1) h).2]
      · rw [if_neg h]
        exact Nat.zero_le _
  | succ i ih =>
    intro j
    match j with
    | 0 =>
      simp only [rl]
      by_cases h : hitD a (i + 1) 0 = true
      · rw [if_pos h, if_pos (hitD_diag_of_hitD a (i + 1) 0 h).2]
        omega
      · rw [if_neg h]
        exact Nat.zero_le _
    | j + 1 =>
      simp only [rl]
      by_cases h : hitD a (i + 1) (j + 1) = true
      · rw [if_pos h, if_pos (hitD_diag_of_hitD a (i + 1) (j + 1) h).2]
        have := ih j
        omega
      · rw [if_neg h]
        exact Nat.zero_le _

/-- A run ending at column `j` has length at most `j + 1`. -/
theorem rl_le_succ (a : List Char) : ∀ i j, rl a i j ≤ j + 1 := by
  intro i
  induction i with
  | zero =>
    intro j
    simp only [rl]
    by_cases h : hitD a 0 j = true
    · rw [if_pos h]; omega
    · rw [if_neg h]; omega
  | succ i ih =>
    intro j
    match j with
    | 0 =>
      simp only [rl]
      by_cases h : hitD a (i + 1) 0 = true
      · rw [if_pos h]
      · rw [if_neg h]; omega
    | j + 1 =>
      simp only [rl]
      by_cases h : hitD a (i + 1) (j + 1) = true
      · rw [if_pos h]
        have := ih j
        omega
      · rw [if_neg h]; omega

/-- In the self-comparison, one scan row computes exactly the run lengths
`rl a i ·`. -/
theorem mkRow_diag (a : List Char) (i : Nat) :
    mkRow a 0 a.length (a.getD i ' ') (diagRow a i) = (List.range a.length).map (rl a i) := by
  rw [mkRow]
  apply List.map_congr_left
  intro j hj
  have hjn : j < a.length := List.mem_range.mp hj
  have hhit : hitB a 0 a.length (a.getD i ' ') j = hitD a i j := by
    simp [hitB, hitD, hjn]
  rw [hhit]
  match i with
  | 0 =>
    match j with
    | 0 => simp [rl, diagRow]
    | j + 1 => simp [rl, diagRow, getD_replicate_zero]
  | i + 1 =>
    match j with
    | 0 => simp [rl]
    | j + 1 =>
      rw [if_neg (by omega : ¬(j + 1 = 0))]
      simp only [diagRow, Nat.add_sub_cancel]
      rw [getD_map_range, if_pos (by omega : j < a.length)]
      simp only [rl]

/-- Scanning one self-comparison row keeps the best block diagonal: runs
left of the diagonal are dominated by their own diagonal (already at most
the best size), later runs of the row are dominated by the row diagonal. -/
theorem scanRowBest_diag (a : List Char) (i d K : Nat) (hi : i < a.length)
    (hdK : d + K ≤ a.length) (hdiag : ∀ i0, i0 < i → rl a i0 i0 ≤ K) :
    ∃ e L, scanRowBest i ((List.range a.length).map (rl a i)) ⟨d, d, K⟩ = ⟨e, e, L⟩ ∧
      e + L ≤ a.length ∧ ∀ i0, i0 < i + 1 → rl a i0 i0 ≤ L := by
  set row := (List.range a.length).map (rl a i) with hrowdef
  have hgd : ∀ j, j < a.length → row.getD j 0 = rl a i j := by
    intro j hj
    rw [hrowdef, getD_map_range, if_pos hj]
  have hlen : row.length = a.length := by rw [hrowdef]; simp
  rw [scanRowBest, hlen, List.range_eq_range']
  have key := foldl_range'_inv
    (fun bst j =>
      if bst.bestsize < row.getD j 0 then
        (⟨i + 1 - row.getD j 0, j + 1 - row.getD j 0, row.getD j 0⟩ : Best)
      else bst)
    (fun j bst => ∃ e L, bst = ⟨e, e, L⟩ ∧ e + L ≤ a.length ∧
      (∀ i0, i0 < i → rl a i0 i0 ≤ L) ∧ (i < j → rl a i i ≤ L))
    a.length 0 ⟨d, d, K⟩
    ⟨d, K, rfl, hdK, hdiag, fun hg => absurd hg (by omega)⟩ ?hstep
  · obtain ⟨e, L, h1, h2, h3, h4⟩ := key
    exact ⟨e, L, h1, h2, fun i0 h0 => by
      rcases Nat.lt_or_ge i0 i with hc | hc
      · exact h3 i0 hc
      · have : i0 = i := by omega
        subst this
        exact h4 (by omega)⟩
  case hstep =>
    intro j bst _ hjlt hinv
    obtain ⟨e, L, hbst, heL, hprev, hcur⟩ := hinv
    subst hbst
    have hjn : j < a.length := by omega
    show ∃ e2 L2,
      (if Best.bestsize ⟨e, e, L⟩ < row.getD j 0 then
        (⟨i + 1 - row.getD j 0, j + 1 - row.getD j 0, row.getD j 0⟩ : Best)
      else ⟨e, e, L⟩) = ⟨e2, e2, L2⟩ ∧ e2 + L2 ≤ a.length ∧
      (∀ i0, i0 < i → rl a i0 i0 ≤ L2) ∧ (i < j + 1 → rl a i i ≤ L2)
    rw [hgd j hjn]
    by_cases hk : Best.bestsize ⟨e, e, L⟩ < rl a i j
    · rw [if_pos hk]
      have hkL : L < rl a i j := hk
      rcases Nat.lt_trichotomy j i with hji | hji
      · exfalso
        have h1 := rl_le_diag_right a j i
        have h2 := hprev j hji
        omega
      · rcases hji with hji | hji
        · subst hji
          refine ⟨j + 1 - rl a j j, rl a j j, rfl, ?_, ?_, ?_⟩
          · have := rl_le_succ a j j
            omega
          · intro i0 h0
            have := hprev i0 h0
            omega
          · intro _
            omega
        · exfalso
          have h1 := rl_le_diag_left a i j
          have h2 := hcur hji
          omega
    · rw [if_neg hk]
      refine ⟨e, L, rfl, heL, hprev, ?_⟩
      intro hij
      rcases Nat.lt_or_ge i j with hc | hc
      · exact hcur hc
      · have : i = j := by omega
        subst this
        simpa using Nat.le_of_not_lt hk

/-- The self-comparison row scan ends with a diagonal best block. -/
theorem flmScan_self (a : List Char) :
    ∃ d K, (flmScan a a 0 a.length 0 a.length).2 = ⟨d, d, K⟩ ∧ d + K ≤ a.length := by
  rw [flmScan]
  have key := foldl_range'_inv
    (fun (st : List Nat × Best) i =>
      (mkRow a 0 a.length (a.getD i ' ') st.1,
        scanRowBest i (mkRow a 0 a.length (a.getD i ' ') st.1) st.2))
    (fun i st => st.1 = diagRow a i ∧
      ∃ d K, st.2 = ⟨d, d, K⟩ ∧ d + K ≤ a.length ∧ ∀ i0, i0 < i → rl a i0 i0 ≤ K)
    (a.length - 0) 0 (List.replicate a.length 0, ⟨0, 0, 0⟩)
    ⟨rfl, 0, 0, rfl, by omega, fun i0 h0 => absurd h0 (by omega)⟩ ?hstep
  · have heq : 0 + (a.length - 0) = a.length := by omega
    rw [heq] at key
    obtain ⟨-, d, K, h2, h3, -⟩ := key
    exact ⟨d, K, h2, h3⟩
  case hstep =>
    intro i st0 hi0 hi1 hinv
    obtain ⟨hrow, d, K, hbest, hdK, hdiag⟩ := hinv
    constructor
    · show mkRow a 0 a.length (a.getD i ' ') st0.1 = diagRow a (i + 1)
      rw [hrow, mkRow_diag]
      rfl
    · show ∃ d2 K2,
        scanRowBest i (mkRow a 0 a.length (a.getD i ' ') st0.1) st0.2 = ⟨d2, d2, K2⟩ ∧
          d2 + K2 ≤ a.length ∧ ∀ i0, i0 < i + 1 → rl a i0 i0 ≤ K2
      rw [hrow, mkRow_diag, hbest]
      exact scanRowBest_diag a i d K (by omega) hdK hdiag

/-- Backward extension of a diagonal block in the self-comparison runs all
the way to the start of the window. -/
theorem extendBackF_self (a : List Char) :
    ∀ d K, extendBackF a a 0 0 d ⟨d, d, K⟩ = ⟨0, 0, K + d⟩ := by
  intro d
  induction d with
  | zero => intro K; rfl
  | succ d ih =>
    intro K
    rw [extendBackF]
    rw [if_pos ⟨(by show 0 < d + 1; omega), (by show 0 < d + 1; omega),
      (by show (a.getD (d + 1 - 1) ' ' == a.getD (d + 1 - 1) ' ') = true; simp)⟩]
    show extendBackF a a 0 0 d ⟨d, d, K + 1⟩ = ⟨0, 0, K + (d + 1)⟩
    rw [ih (K + 1)]
    congr 1
    omega

/-- Forward extension of an initial diagonal block in the self-comparison
runs all the way to the end of the window. -/
theorem extendFwdF_self (a : List Char) :
    ∀ fuel s, s + fuel = a.length →
      extendFwdF a a a.length a.length fuel ⟨0, 0, s⟩ = ⟨0, 0, a.length⟩ := by
  intro fuel
  induction fuel with
  | zero =>
    intro s hs
    have hsn : s = a.length := by omega
    rw [extendFwdF, hsn]
  | succ fuel ih =>
    intro s hs
    rw [extendFwdF]
    rw [if_pos ⟨(by show 0 + s < a.length; omega), (by show 0 + s < a.length; omega),
      (by show (a.getD (0 + s) ' ' == a.getD (0 + s) ' ') = true; simp)⟩]
    show extendFwdF a a a.length a.length fuel ⟨0, 0, s + 1⟩ = ⟨0, 0, a.length⟩
    exact ih (s + 1) (by omega)

/-- Comparing a list with itself, `find_longest_match` returns the whole
window as a single block. -/
theorem findLongestMatch_self (a : List Char) :
    findLongestMatch a a 0 a.length 0 a.length = ⟨0, 0, a.length⟩ := by
  obtain ⟨d, K, hbest, hdK⟩ := flmScan_self a
  rw [findLongestMatch, hbest, extendBack]
  show extendFwd a a a.length a.length (extendBackF a a 0 0 d ⟨d, d, K⟩) = _
  rw [extendBackF_self]
  rw [extendFwd]
  show extendFwdF a a a.length a.length (a.length - (0 + (K + d))) ⟨0, 0, K + d⟩ = _
  exact extendFwdF_self a (a.length - (0 + (K + d))) (K + d) (by omega)

/-- Comparing a list with itself matches every position. -/
theorem matchesTotal_self (a : List Char) : matchesTotal a a = a.length := by
  rw [matchesTotal]
  simp only [matchTotalF]
  rw [findLongestMatch_self]
  rcases Nat.eq_zero_or_pos a.length with h0 | h0
  · simp [h0]
  · rw [if_neg (by show ¬(a.length = 0); omega)]
    rw [if_neg (by show ¬(0 < 0 ∧ 0 < 0); omega)]
    rw [if_neg (by show ¬(0 + a.length < a.length ∧ 0 + a.length < a.length); omega)]
    show 0 + a.length + 0 = a.length
    omega

/-- The difflib ratio of a sequence with itself is `1.0` (also for the empty
sequence, through the `length == 0` branch of `_calculate_ratio`). -/
theorem ratio_self (a : List Char) : ratio a a = 1 := by
  rw [ratio]
  rcases Nat.eq_zero_or_pos a.length with h0 | h0
  · rw [if_pos (by omega)]
  · rw [if_neg (by omega), matchesTotal_self, Rat.mkRat_eq_div]
    have hq : (0 : ℚ) < (a.length : ℚ) + (a.length : ℚ) := by
      have : (0 : ℚ) < (a.length : ℚ) := by exact_mod_cast h0
      linarith
    push_cast
    rw [div_eq_one_iff_eq (ne_of_gt hq)]
    ring

/-- The string similarity of any string with itself is `1.0`. -/
theorem string_similarity_self (s : String) : string_similarity s s = 1 :=
  ratio_self _

/-! ### Behavior of validate_response -/

theorem pyTruthy_some (s : String) (h : s ≠ "") : pyTruthy (some s) = true := by
  simp [pyTruthy, h]

/-- Case analysis of `validate_response` on a truthy KB answer and a string
model response. -/
theorem validate_response_kb (rm : String → Except Unit String) (q resp ans : String)
    (hans : ans ≠ "") :
    validate_response rm q (some resp) (some ans) =
      if string_similarity resp ans < threshold then
        .ok (⟨.retryDivergent, some (string_similarity resp ans),
          some (retry_question rm q (some ans))⟩, [kbRetryPrompt ans q])
      else .ok (⟨.valid, some (string_similarity resp ans), none⟩, []) := by
  rw [validate_response, if_pos (by rw [pyTruthy_some ans hans])]
  simp

/-- Case analysis of `validate_response` on a falsy KB answer (absent or
empty): always out-of-domain, no similarity computed, one retry issued. -/
theorem validate_response_ood (rm : String → Except Unit String) (q : String)
    (mr : Option String) (ka : Option String) (h : pyTruthy ka = false) :
    validate_response rm q mr ka =
      .ok (⟨.retryOutOfDomain, none, some (retry_question rm q none)⟩,
        [oodRetryPrompt q]) := by
  rw [validate_response.eq_def, if_neg (by rw [h]; exact Bool.false_ne_true)]

/-! ### Claim C1: the 0.8 threshold is inclusive on the VALID side -/

/-- C1: for every record with a non-empty reference answer and a string
model response, the validator classifies VALID exactly when the similarity
score is at least 0.8 and RETRY_DIVERGENT exactly when it is strictly below
0.8 (so a score of exactly 0.8 is VALID). -/
theorem C1_threshold_boundary (rm : String → Except Unit String)
    (q resp ans : String) (hans : ans ≠ "") :
    ∃ res log, validate_response rm q (some resp) (some ans) = .ok (res, log) ∧
      (res.status = .valid ↔ (0.8 : ℚ) ≤ string_similarity resp ans) ∧
      (res.status = .retryDivergent ↔ string_similarity resp ans < (0.8 : ℚ)) := by
  rw [validate_response_kb rm q resp ans hans]
  by_cases h : string_similarity resp ans < threshold
  · rw [if_pos h]
    rw [threshold_eq] at h
    refine ⟨_, _, rfl, ?_, ?_⟩
    · exact iff_of_false (by simp) (not_le.mpr h)
    · exact iff_of_true rfl h
  · rw [if_neg h]
    rw [threshold_eq] at h
    refine ⟨_, _, rfl, ?_, ?_⟩
    · exact iff_of_true rfl (not_lt.mp h)
    · exact iff_of_false (by simp) h

/-- Witness for C1 at the exact boundary: similarity("aaaa","aaaaaa") is
exactly 0.8 and the record classifies VALID. -/
theorem C1_threshold_boundary_witness :
    ("aaaaaa" : String) ≠ "" ∧
      ∃ res log,
        validate_response (fun _ => .ok "x") "q" (some "aaaa") (some "aaaaaa")
          = .ok (res, log) ∧
        (res.status = .valid ↔ (0.8 : ℚ) ≤ string_similarity "aaaa" "aaaaaa") ∧
        (res.status = .retryDivergent ↔ string_similarity "aaaa" "aaaaaa" < (0.8 : ℚ)) :=
  ⟨by decide, C1_threshold_boundary (fun _ => .ok "x") "q" "aaaa" "aaaaaa" (by decide)⟩

/-! ### Claim C2: a None model response crashes the validator -/

/-- C2 (code bug): a knowledge-base record whose `model_response` is the
`None` sentinel written by a failed responder query makes
`string_similarity` raise `AttributeError` (`None.lower()`); the exception
escapes `validate_all_responses`, so no ValidationRecord at all is produced
for the batch, contradicting the absorb-per-item-errors design. -/
theorem C2_null_response_aborts :
    validate_all_responses (fun _ => .ok "retry")
        [⟨"Q", none, "kb_question", some "A"⟩] = .error .attributeError := by
  decide

/-! ### Claim C3: similarity is reflexive and case-insensitive, not symmetric -/

/-- C3 (counterexample): the difflib ratio is not symmetric. On this pair
the greedy matcher finds only the block `ab` one way (total 2 of 14
characters) but the blocks `cd` and `ef` the other way (total 4 of 14). -/
theorem C3_not_symmetric :
    string_similarity "abxcdef" "cdyefab" ≠ string_similarity "cdyefab" "abxcdef" := by
  decide

/-- C3 (amended): similarity(A, A) = 1.0 for every non-empty text A, and
the comparison is case-insensitive (the score depends only on the
lowercased texts); symmetry, however, does not hold in general. -/
theorem C3_self_similarity :
    (∀ A : String, A ≠ "" → string_similarity A A = 1) ∧
      ∀ s1 s2 t1 t2 : String,
        s1.toList.map Char.toLower = t1.toList.map Char.toLower →
        s2.toList.map Char.toLower = t2.toList.map Char.toLower →
        string_similarity s1 s2 = string_similarity t1 t2 := by
  constructor
  · intro A _
    exact string_similarity_self A
  · intro s1 s2 t1 t2 h1 h2
    rw [string_similarity, string_similarity, h1, h2]

/-- Witness for C3 as amended. -/
theorem C3_self_similarity_witness :
    string_similarity "ok" "ok" = 1 ∧
      string_similarity "AB" "ab" = string_similarity "aB" "Ab" :=
  ⟨C3_self_similarity.1 "ok" (by decide),
    C3_self_similarity.2 "AB" "ab" "aB" "Ab" (by decide) (by decide)⟩

/-! ### Claim C4: what a persisted ValidationRecord carries -/

theorem validate_response_none_raises (rm : String → Except Unit String)
    (q : String) (ka : Option String) (hka : pyTruthy ka = true) :
    validate_response rm q none ka = .error .attributeError := by
  rw [validate_response, if_pos (by rw [hka])]

theorem pyTruthy_false_cases (ka : Option String) (h : ¬pyTruthy ka = true) :
    pyTruthy ka = false := by
  revert h
  cases pyTruthy ka <;> simp

/-- Inversion of one loop iteration: a produced entry is assembled from the
validation result, carrying exactly question, original_response, the status
string and retry_response. -/
theorem processRecord_inv (rm : String → Except Unit String) (r : ResponseRecord)
    (entry : ValidationEntry) (h : processRecord rm r = .ok entry) :
    ∃ res log, validate_response rm r.question r.model_response r.kb_answer = .ok (res, log) ∧
      entry = ⟨r.question, r.model_response, statusStr res.status, res.retry_response⟩ := by
  rw [processRecord] at h
  cases hv : validate_response rm r.question r.model_response r.kb_answer with
  | error e =>
    rw [hv] at h
    simp [Except.map] at h
  | ok p =>
    rw [hv] at h
    simp only [Except.map, Except.ok.injEq] at h
    exact ⟨p.1, p.2, rfl, h.symm⟩

/-- The computed similarity is a rational in `[0, 1]` for truthy KB answers
and `None` otherwise. -/
theorem validate_response_similarity (rm : String → Except Unit String)
    (q : String) (mr ka : Option String) (res : VResult) (log : List String)
    (h : validate_response rm q mr ka = .ok (res, log)) :
    (pyTruthy ka = true → ∃ qv, res.similarity = some qv ∧ 0 ≤ qv ∧ qv ≤ 1) ∧
      (pyTruthy ka = false → res.similarity = none) := by
  by_cases hka : pyTruthy ka = true
  · cases mr with
    | none =>
      rw [validate_response_none_raises rm q ka hka] at h
      cases h
    | some resp =>
      cases ka with
      | none => simp [pyTruthy] at hka
      | some ans =>
        have hans : ans ≠ "" := by simpa [pyTruthy] using hka
        rw [validate_response_kb rm q resp ans hans] at h
        by_cases hs : string_similarity resp ans < threshold
        · rw [if_pos hs] at h
          simp only [Except.ok.injEq, Prod.mk.injEq] at h
          obtain ⟨hres, -⟩ := h
          subst hres
          refine ⟨fun _ => ⟨string_similarity resp ans, rfl,
              string_similarity_nonneg resp ans, string_similarity_le_one resp ans⟩,
            fun hf => ?_⟩
          rw [hka] at hf
          cases hf
        · rw [if_neg hs] at h
          simp only [Except.ok.injEq, Prod.mk.injEq] at h
          obtain ⟨hres, -⟩ := h
          subst hres
          refine ⟨fun _ => ⟨string_similarity resp ans, rfl,
              string_similarity_nonneg resp ans, string_similarity_le_one resp ans⟩,
            fun hf => ?_⟩
          rw [hka] at hf
          cases hf
  · have hf := pyTruthy_false_cases ka hka
    rw [validate_response_ood rm q mr ka hf] at h
    simp only [Except.ok.injEq, Prod.mk.injEq] at h
    obtain ⟨hres, -⟩ := h
    subst hres
    refine ⟨fun ht => ?_, fun _ => rfl⟩
    rw [hf] at ht
    cases ht

/-- C4 (amended): every persisted ValidationRecord carries exactly
question, original_response, a status string and retry_response; the
similarity score is computed per record (a rational in `[0, 1]` for
knowledge-base records, `None` for probe records) but is not part of the
persisted entry. -/
theorem C4_entry_shape (rm : String → Except Unit String) (r : ResponseRecord)
    (entry : ValidationEntry) (h : processRecord rm r = .ok entry) :
    entry.question = r.question ∧
    entry.original_response = r.model_response ∧
    (∃ st : Status, entry.validation_result = statusStr st) ∧
    ∃ res log, validate_response rm r.question r.model_response r.kb_answer = .ok (res, log) ∧
      entry.retry_response = res.retry_response ∧
      (pyTruthy r.kb_answer = true → ∃ qv, res.similarity = some qv ∧ 0 ≤ qv ∧ qv ≤ 1) ∧
      (pyTruthy r.kb_answer = false → res.similarity = none) := by
  obtain ⟨res, log, hv, hentry⟩ := processRecord_inv rm r entry h
  subst hentry
  have hsim := validate_response_similarity rm r.question r.model_response r.kb_answer res log hv
  exact ⟨rfl, rfl, ⟨res.status, rfl⟩, res, log, hv, rfl, hsim.1, hsim.2⟩

/-- Witness for C4 as amended, at a concrete VALID knowledge-base record. -/
theorem C4_entry_shape_witness :
    ((⟨"q", some "aaaa", "VALID", none⟩ : ValidationEntry).question
        = (⟨"q", some "aaaa", "kb_question", some "aaaa"⟩ : ResponseRecord).question) ∧
    ((⟨"q", some "aaaa", "VALID", none⟩ : ValidationEntry).original_response
        = (⟨"q", some "aaaa", "kb_question", some "aaaa"⟩ : ResponseRecord).model_response) ∧
    (∃ st : Status, (⟨"q", some "aaaa", "VALID", none⟩ : ValidationEntry).validation_result
        = statusStr st) ∧
    ∃ res log,
      validate_response (fun _ => .ok "x")
          (⟨"q", some "aaaa", "kb_question", some "aaaa"⟩ : ResponseRecord).question
          (⟨"q", some "aaaa", "kb_question", some "aaaa"⟩ : ResponseRecord).model_response
          (⟨"q", some "aaaa", "kb_question", some "aaaa"⟩ : ResponseRecord).kb_answer
        = .ok (res, log) ∧
      (⟨"q", some "aaaa", "VALID", none⟩ : ValidationEntry).retry_response = res.retry_response ∧
      (pyTruthy (⟨"q", some "aaaa", "kb_question", some "aaaa"⟩ : ResponseRecord).kb_answer = true →
        ∃ qv, res.similarity = some qv ∧ 0 ≤ qv ∧ qv ≤ 1) ∧
      (pyTruthy (⟨"q", some "aaaa", "kb_question", some "aaaa"⟩ : ResponseRecord).kb_answer = false →
        res.similarity = none) :=
  C4_entry_shape (fun _ => .ok "x") ⟨"q", some "aaaa", "kb_question", some "aaaa"⟩
    ⟨"q", some "aaaa", "VALID", none⟩ (by decide)

/-- C4 (counterexample): two records with different similarity scores (1 and
4/5) produce identical persisted entries, so the persisted ValidationRecord
does not carry the similarity score. -/
theorem C4_no_similarity_persisted :
    processRecord (fun _ => .ok "x") ⟨"q", some "aaaa", "kb_question", some "aaaa"⟩
        = processRecord (fun _ => .ok "x") ⟨"q", some "aaaa", "kb_question", some "aaaaaa"⟩ ∧
      validate_response (fun _ => .ok "x") "q" (some "aaaa") (some "aaaa")
        ≠ validate_response (fun _ => .ok "x") "q" (some "aaaa") (some "aaaaaa") := by
  constructor
  · decide
  · decide

/-! ### Claim C5: startup failures print an error but exit with status 0 -/

theorem askModelMain_abort (env : AskEnv) (model : String → Except Unit String)
    (h : pyTruthy env.apiKey = false ∨ env.kbFile = none) :
    askModelMain env model = ⟨0, true, none⟩ := by
  rcases h with h | h
  · simp [askModelMain, h]
  · cases hk : pyTruthy env.apiKey
    · simp [askModelMain, hk]
    · simp [askModelMain, hk, h]

theorem validatorMain_abort (env : ValEnv) (rm : String → Except Unit String)
    (h : pyTruthy env.apiKey = false ∨ env.kbFile = none ∨ env.responsesFile = none) :
    validatorMain env rm = ⟨0, true, none⟩ := by
  rcases h with h | h | h
  · simp [validatorMain, h]
  · cases hk : pyTruthy env.apiKey
    · simp [validatorMain, hk]
    · simp [validatorMain, hk, h]
  · cases hk : pyTruthy env.apiKey
    · simp [validatorMain, hk]
    · cases hkb : env.kbFile
      · simp [validatorMain, hk, hkb]
      · simp [validatorMain, hk, hkb, h]

/-- C5 (amended): a stage started with a missing/empty credential or a
missing input file prints the error message, writes no output and issues no
model query (its outcome does not depend on the model oracle at all) — but
its exit status is 0, not non-zero, because `main` catches the exception
and falls through. -/
theorem C5_startup_abort (env : AskEnv) (venv : ValEnv)
    (model rm : String → Except Unit String)
    (h1 : pyTruthy env.apiKey = false ∨ env.kbFile = none)
    (h2 : pyTruthy venv.apiKey = false ∨ venv.kbFile = none ∨ venv.responsesFile = none) :
    ((askModelMain env model).errorPrinted = true ∧
      (askModelMain env model).output = none ∧
      (askModelMain env model).exitCode = 0 ∧
      ∀ model2, askModelMain env model2 = askModelMain env model) ∧
    ((validatorMain venv rm).errorPrinted = true ∧
      (validatorMain venv rm).output = none ∧
      (validatorMain venv rm).exitCode = 0 ∧
      ∀ rm2, validatorMain venv rm2 = validatorMain venv rm) := by
  constructor
  · rw [askModelMain_abort env model h1]
    exact ⟨rfl, rfl, rfl, fun model2 => by rw [askModelMain_abort env model2 h1]⟩
  · rw [validatorMain_abort venv rm h2]
    exact ⟨rfl, rfl, rfl, fun rm2 => by rw [validatorMain_abort venv rm2 h2]⟩

/-- Witness for C5 as amended: both stages with a missing credential. -/
theorem C5_startup_abort_witness :
    ((askModelMain ⟨none, some []⟩ (fun _ => .ok "x")).errorPrinted = true ∧
      (askModelMain ⟨none, some []⟩ (fun _ => .ok "x")).output = none ∧
      (askModelMain ⟨none, some []⟩ (fun _ => .ok "x")).exitCode = 0 ∧
      ∀ model2, askModelMain ⟨none, some []⟩ model2
        = askModelMain ⟨none, some []⟩ (fun _ => .ok "x")) ∧
    ((validatorMain ⟨none, some (), some []⟩ (fun _ => .ok "x")).errorPrinted = true ∧
      (validatorMain ⟨none, some (), some []⟩ (fun _ => .ok "x")).output = none ∧
      (validatorMain ⟨none, some (), some []⟩ (fun _ => .ok "x")).exitCode = 0 ∧
      ∀ rm2, validatorMain ⟨none, some (), some []⟩ rm2
        = validatorMain ⟨none, some (), some []⟩ (fun _ => .ok "x")) :=
  C5_startup_abort ⟨none, some []⟩ ⟨none, some (), some []⟩ (fun _ => .ok "x")
    (fun _ => .ok "x") (Or.inl (by decide)) (Or.inl (by decide))

/-- C5 (counterexample): with a missing credential both stages end with exit
status 0 — a success exit — even though the error message was printed, so
the claimed non-zero exit status does not hold. -/
theorem C5_exit_status_zero :
    (askModelMain ⟨none, some []⟩ (fun _ => .ok "x")).exitCode = 0 ∧
      (askModelMain ⟨none, some []⟩ (fun _ => .ok "x")).errorPrinted = true ∧
      (validatorMain ⟨none, some (), some []⟩ (fun _ => .ok "x")).exitCode = 0 ∧
      (validatorMain ⟨none, some (), some []⟩ (fun _ => .ok "x")).errorPrinted = true := by
  refine ⟨?_, ?_, ?_, ?_⟩ <;> decide

/-! ### Claim C7: the responder absorbs single-query failures -/

/-- C7: for every model oracle (failures included) the responder emits
exactly one record per KB entry followed by one per probe question, in
order; each record's `model_response` is the oracle answer, and it is the
`None` sentinel exactly on a failed call — a failure never aborts the
batch. -/
theorem C7_responder_never_aborts (model : String → Except Unit String)
    (kb : List QAPair) :
    (process_questions model kb).length = kb.length + 5 ∧
    (process_questions model kb).map (fun r => r.question)
      = kb.map (fun qa => qa.question) ++ edge_cases ∧
    ∀ r ∈ process_questions model kb,
      r.model_response = get_model_response model r.question ∧
      ∀ e : Unit, model r.question = .error e → r.model_response = none := by
  refine ⟨?_, ?_, ?_⟩
  · simp [process_questions, edge_cases]
  · simp [process_questions, List.map_map]
    rfl
  · intro r hr
    rw [process_questions, List.mem_append] at hr
    have hmr : r.model_response = get_model_response model r.question := by
      rcases hr with hr | hr
      · obtain ⟨qa, -, rfl⟩ := List.mem_map.mp hr
        rfl
      · obtain ⟨q, -, rfl⟩ := List.mem_map.mp hr
        rfl
    refine ⟨hmr, fun e he => ?_⟩
    rw [hmr, get_model_response, he]

/-! ### Claim C8: probe records are RETRY_OUT_OF_DOMAIN with a retry text -/

/-- C8: a record with no reference answer always validates to
RETRY_OUT_OF_DOMAIN with a non-null retry_response, which is the stripped
retry completion on success and the literal `"Error during retry"`
placeholder when the retry call raises. -/
theorem C8_probe_status (rm : String → Except Unit String) (q : String)
    (mr ka : Option String) (h : pyTruthy ka = false) :
    validate_response rm q mr ka
        = .ok (⟨.retryOutOfDomain, none, some (retry_question rm q none)⟩,
            [oodRetryPrompt q]) ∧
      ((∃ t, rm (oodRetryPrompt q) = .ok t ∧ retry_question rm q none = t.trim) ∨
        (rm (oodRetryPrompt q) = .error () ∧
          retry_question rm q none = "Error during retry")) := by
  refine ⟨validate_response_ood rm q mr ka h, ?_⟩
  cases hrm : rm (oodRetryPrompt q) with
  | ok t => exact Or.inl ⟨t, rfl, by rw [retry_question]; simp [pyTruthy, hrm]⟩
  | error u =>
    cases u
    exact Or.inr ⟨rfl, by rw [retry_question]; simp [pyTruthy, hrm]⟩

/-- Witness for C8: empty-string reference answer and a failing retry model
give the literal placeholder. -/
theorem C8_probe_status_witness :
    validate_response (fun _ => .error ()) "q" none (some "")
        = .ok (⟨.retryOutOfDomain, none,
            some (retry_question (fun _ => .error ()) "q" none)⟩,
            [oodRetryPrompt "q"]) ∧
      ((∃ t, (fun _ => (.error () : Except Unit String)) (oodRetryPrompt "q") = .ok t ∧
          retry_question (fun _ => .error ()) "q" none = t.trim) ∨
        ((fun _ => (.error () : Except Unit String)) (oodRetryPrompt "q") = .error () ∧
          retry_question (fun _ => .error ()) "q" none = "Error during retry")) :=
  C8_probe_status (fun _ => .error ()) "q" none (some "") (by decide)

/-! ### Claim C9: only the truthiness of kb_answer matters -/

/-- C9: the validator never reads the `type` tag, and an empty-string
`kb_answer` is classified exactly like an absent one: RETRY_OUT_OF_DOMAIN
with no similarity computed. -/
theorem C9_truthiness_only (rm : String → Except Unit String) (q : String)
    (mr : Option String) (r : ResponseRecord) (t : String) :
    processRecord rm { r with type := t } = processRecord rm r ∧
    validate_response rm q mr (some "") = validate_response rm q mr none ∧
    validate_response rm q mr (some "")
      = .ok (⟨.retryOutOfDomain, none, some (retry_question rm q none)⟩,
          [oodRetryPrompt q]) := by
  refine ⟨rfl, ?_, ?_⟩
  · rw [validate_response_ood rm q mr (some "") (by decide),
      validate_response_ood rm q mr none (by decide)]
  · exact validate_response_ood rm q mr (some "") (by decide)

/-! ### Claim C10: a retry query is issued exactly for non-VALID records -/

/-- C10: a VALID result carries no retry_response and issues no retry
query; the two RETRY classifications issue exactly one retry query and
carry a non-null retry_response. -/
theorem C10_retry_iff (rm : String → Except Unit String) (q : String)
    (mr ka : Option String) (res : VResult) (log : List String)
    (h : validate_response rm q mr ka = .ok (res, log)) :
    (res.status = .valid ↔ log = []) ∧
    (res.status = .valid → res.retry_response = none) ∧
    (res.status ≠ .valid → log.length = 1 ∧ ∃ s, res.retry_response = some s) := by
  by_cases hka : pyTruthy ka = true
  · cases mr with
    | none =>
      rw [validate_response_none_raises rm q ka hka] at h
      cases h
    | some resp =>
      cases ka with
      | none => simp [pyTruthy] at hka
      | some ans =>
        have hans : ans ≠ "" := by simpa [pyTruthy] using hka
        rw [validate_response_kb rm q resp ans hans] at h
        by_cases hs : string_similarity resp ans < threshold
        · rw [if_pos hs] at h
          simp only [Except.ok.injEq, Prod.mk.injEq] at h
          obtain ⟨hres, hlog⟩ := h
          subst hres
          subst hlog
          refine ⟨iff_of_false (by simp) (by simp), fun hv => ?_, fun _ => ?_⟩
          · cases hv
          · exact ⟨rfl, retry_question rm q (some ans), rfl⟩
        · rw [if_neg hs] at h
          simp only [Except.ok.injEq, Prod.mk.injEq] at h
          obtain ⟨hres, hlog⟩ := h
          subst hres
          subst hlog
          exact ⟨iff_of_true rfl rfl, fun _ => rfl, fun hn => absurd rfl hn⟩
  · rw [validate_response_ood rm q mr ka (pyTruthy_false_cases ka hka)] at h
    simp only [Except.ok.injEq, Prod.mk.injEq] at h
    obtain ⟨hres, hlog⟩ := h
    subst hres
    subst hlog
    refine ⟨iff_of_false (by simp) (by simp), fun hv => ?_, fun _ => ?_⟩
    · cases hv
    · exact ⟨rfl, retry_question rm q none, rfl⟩

/-- Witness for C10 at a concrete VALID record. -/
theorem C10_retry_iff_witness :
    ((⟨.valid, some 1, none⟩ : VResult).status = .valid ↔ ([] : List String) = []) ∧
    ((⟨.valid, some 1, none⟩ : VResult).status = .valid →
      (⟨.valid, some 1, none⟩ : VResult).retry_response = none) ∧
    ((⟨.valid, some 1, none⟩ : VResult).status ≠ .valid →
      ([] : List String).length = 1 ∧
        ∃ s, (⟨.valid, some 1, none⟩ : VResult).retry_response = some s) :=
  C10_retry_iff (fun _ => .ok "x") "q" (some "a") (some "a") ⟨.valid, some 1, none⟩ []
    (by decide)

/-! ### Claim C6: end-to-end record counts, order and accuracy -/

/-- A record that is not a null-response KB record validates successfully,
yielding an entry with the record's question and one of the three status
strings. -/
theorem processRecord_ok (rm : String → Except Unit String) (r : ResponseRecord)
    (h : pyTruthy r.kb_answer = true → r.model_response ≠ none) :
    ∃ entry, processRecord rm r = .ok entry ∧ entry.question = r.question ∧
      ∃ st : Status, entry.validation_result = statusStr st := by
  by_cases hka : pyTruthy r.kb_answer = true
  · have hmr := h hka
    cases hm : r.model_response with
    | none => exact absurd hm hmr
    | some resp =>
      cases hkb : r.kb_answer with
      | none => rw [hkb] at hka; simp [pyTruthy] at hka
      | some ans =>
        have hans : ans ≠ "" := by rw [hkb] at hka; simpa [pyTruthy] using hka
        rw [processRecord, hm, hkb, validate_response_kb rm r.question resp ans hans]
        by_cases hs : string_similarity resp ans < threshold
        · rw [if_pos hs]
          exact ⟨_, rfl, rfl, .retryDivergent, rfl⟩
        · rw [if_neg hs]
          exact ⟨_, rfl, rfl, .valid, rfl⟩
  · rw [processRecord,
      validate_response_ood rm r.question r.model_response r.kb_answer
        (pyTruthy_false_cases _ hka)]
    exact ⟨_, rfl, rfl, .retryOutOfDomain, rfl⟩

/-- On the three status strings, the summary's substring test
`'RETRY' in validation_result` agrees with "status is not VALID". -/
theorem hallucinated_statusStr (st : Status) (e : ValidationEntry)
    (he : e.validation_result = statusStr st) :
    hallucinated e = !(e.validation_result == "VALID") := by
  rw [hallucinated, he]
  cases st <;> decide

/-- Validation succeeds on a whole batch without null-response KB records,
returning one entry per record, with the questions in the same order. -/
theorem validate_all_ok (rm : String → Except Unit String) :
    ∀ rs : List ResponseRecord,
      (∀ r ∈ rs, pyTruthy r.kb_answer = true → r.model_response ≠ none) →
      ∃ es, validate_all_responses rm rs = .ok es ∧
        es.length = rs.length ∧
        es.map (fun e => e.question) = rs.map (fun r => r.question) ∧
        ∀ e ∈ es, hallucinated e = !(e.validation_result == "VALID") := by
  intro rs
  induction rs with
  | nil => intro _; exact ⟨[], rfl, rfl, rfl, by simp⟩
  | cons r rest ih =>
    intro h
    obtain ⟨entry, hpe, hq, st, hst⟩ :=
      processRecord_ok rm r (h r (List.mem_cons_self r rest))
    obtain ⟨es, hes, hlen, hmap, hall⟩ :=
      ih (fun r2 hr2 => h r2 (List.mem_cons_of_mem r hr2))
    refine ⟨entry :: es, ?_, ?_, ?_, ?_⟩
    · rw [validate_all_responses, hpe, hes]
    · simp [hlen]
    · simp [hmap, hq]
    · intro e he
      rcases List.mem_cons.mp he with rfl | he2
      · exact hallucinated_statusStr st e hst
      · exact hall e he2

/-- The hallucination count and the VALID count partition the batch. -/
theorem halluc_count (es : List ValidationEntry)
    (h : ∀ e ∈ es, hallucinated e = !(e.validation_result == "VALID")) :
    summaryHallucinations es
        + (es.filter (fun e => e.validation_result == "VALID")).length = es.length := by
  induction es with
  | nil => rfl
  | cons e es ih =>
    have he := h e (List.mem_cons_self e es)
    have ih2 := ih (fun e2 h2 => h e2 (List.mem_cons_of_mem e h2))
    rw [summaryHallucinations] at ih2 ⊢
    rw [List.filter_cons, List.filter_cons, he]
    cases hv : e.validation_result == "VALID"
    · simp only [hv, Bool.not_false, if_true, if_false, List.length_cons]
      simp only [Bool.false_eq_true, if_false]
      omega
    · simp only [hv, Bool.not_true, if_true, if_false, List.length_cons]
      simp only [Bool.false_eq_true, if_false]
      omega

/-- When every KB query succeeded, no responder record is a null-response
KB record. -/
theorem process_questions_safe (model : String → Except Unit String)
    (kb : List QAPair) (h : ∀ qa ∈ kb, ∃ s, model qa.question = .ok s) :
    ∀ r ∈ process_questions model kb,
      pyTruthy r.kb_answer = true → r.model_response ≠ none := by
  intro r hr htruthy
  rw [process_questions, List.mem_append] at hr
  rcases hr with hr | hr
  · obtain ⟨qa, hqa, rfl⟩ := List.mem_map.mp hr
    obtain ⟨s, hs⟩ := h qa hqa
    show get_model_response model qa.question ≠ none
    rw [get_model_response, hs]
    simp
  · obtain ⟨q, hq, rfl⟩ := List.mem_map.mp hr
    exact (Bool.false_ne_true htruthy).elim

/-- C6 (amended): the responder emits exactly N+5 records; provided every
knowledge-base query succeeded, the validator emits exactly N+5 records in
the same question order, and the printed accuracy equals
100 · (VALID count) / (N+5). (When a KB query failed, validation aborts
instead — see the counterexample.) -/
theorem C6_end_to_end (kb : List QAPair) (model rm : String → Except Unit String)
    (h : ∀ qa ∈ kb, ∃ s, model qa.question = .ok s) :
    (process_questions model kb).length = kb.length + 5 ∧
    ∃ es, validate_all_responses rm (process_questions model kb) = .ok es ∧
      es.length = kb.length + 5 ∧
      es.map (fun e => e.question) = (process_questions model kb).map (fun r => r.question) ∧
      summaryAccuracy es
        = 100 * ((es.filter (fun e => e.validation_result == "VALID")).length : ℚ)
            / ((kb.length : ℚ) + 5) := by
  have hlen : (process_questions model kb).length = kb.length + 5 := by
    simp [process_questions, edge_cases]
  refine ⟨hlen, ?_⟩
  obtain ⟨es, hes, hlen2, hmap, hall⟩ :=
    validate_all_ok rm (process_questions model kb) (process_questions_safe model kb h)
  have hcount := halluc_count es hall
  have hlen3 : es.length = kb.length + 5 := hlen2.trans hlen
  refine ⟨es, hes, hlen3, hmap, ?_⟩
  rw [summaryAccuracy]
  have hval : es.length - summaryHallucinations es
      = (es.filter (fun e => e.validation_result == "VALID")).length := by omega
  rw [hval, hlen3]
  push_cast
  ring

/-- Witness for C6 as amended: one KB entry and a successful model. -/
theorem C6_end_to_end_witness :
    (process_questions (fun _ => .ok "a") [⟨"q", "a"⟩]).length
        = ([⟨"q", "a"⟩] : List QAPair).length + 5 ∧
    ∃ es, validate_all_responses (fun _ => .ok "r")
          (process_questions (fun _ => .ok "a") [⟨"q", "a"⟩]) = .ok es ∧
      es.length = ([⟨"q", "a"⟩] : List QAPair).length + 5 ∧
      es.map (fun e => e.question)
        = (process_questions (fun _ => .ok "a") [⟨"q", "a"⟩]).map (fun r => r.question) ∧
      summaryAccuracy es
        = 100 * ((es.filter (fun e => e.validation_result == "VALID")).length : ℚ)
            / ((([⟨"q", "a"⟩] : List QAPair).length : ℚ) + 5) :=
  C6_end_to_end [⟨"q", "a"⟩] (fun _ => .ok "a") (fun _ => .ok "r")
    (fun _ _ => ⟨"a", rfl⟩)

/-- C6 (counterexample): with one KB entry and a model that fails on it,
the responder still emits N+5 = 6 records, but the validator aborts with
`AttributeError` and emits no ValidationRecords at all. -/
theorem C6_failed_query_aborts :
    (process_questions (fun _ => .error ()) [⟨"q", "a"⟩]).length = 1 + 5 ∧
      validate_all_responses (fun _ => .ok "r")
          (process_questions (fun _ => .error ()) [⟨"q", "a"⟩])
        = .error .attributeError := by
  constructor
  · decide
  · decide

end DH
